import Mathlib

/-!
Verification of the AI provider core of this repository against its
specification.  The definitions below are shallow embeddings of the Python
source:

* `RateLimiter`, `acquire_request_step`, `acquire_tokens_step` embed the
  class `RateLimiter` of `apps/api/src/ai/providers/openai.py`.
* `estimate_tokens`, `retry_go`, `make_request_with_retry` embed
  `OpenAIProvider._estimate_tokens` and
  `OpenAIProvider._make_request_with_retry` of the same file.
* `handle_chat_request`, `stream_chat_response` and the manager state
  machine embed `AIWebSocketManager` of `apps/api/src/websocket/ai_handlers.py`.
* `setup_providers` embeds `AIRouter.setup_providers` of
  `apps/api/src/ai/router.py`.

Timestamps (Python `time.time()` floats) are modelled as rationals;
Python strings as `String` or, where character counts matter, `List Char`.
-/

namespace FarmAI

/-! ### Rate limiter (`openai.py`, class `RateLimiter`)

One instance per provider.  `request_bucket` and `token_bucket` are the two
deques, oldest entry first.  An `acquire_request` / `acquire_tokens` call is a
loop of atomic check steps separated by sleeps (the recursion after
`asyncio.sleep` re-runs the same check at a later time); a single check step is
embedded below, returning the mutated limiter and whether the call was
admitted (`true`) or must sleep and re-check (`false`). -/

structure RateLimiter where
  requests_per_minute : ℕ
  tokens_per_minute : ℕ
  request_bucket : List ℚ
  token_bucket : List (ℚ × ℕ)
deriving Repr, DecidableEq

def RateLimiter.init (rpm tpm : ℕ) : RateLimiter :=
  ⟨rpm, tpm, [], []⟩

/-- `while self.request_bucket and now - self.request_bucket[0] > 60: popleft()` -/
def pruneRequests (now : ℚ) (bucket : List ℚ) : List ℚ :=
  bucket.dropWhile (fun t => decide (60 < now - t))

/-- `while self.token_bucket and now - self.token_bucket[0][0] > 60: popleft()` -/
def pruneTokens (now : ℚ) (bucket : List (ℚ × ℕ)) : List (ℚ × ℕ) :=
  bucket.dropWhile (fun e => decide (60 < now - e.1))

/-- One check of `RateLimiter.acquire_request`, executed atomically at time
`now` (there is no suspension point between the pruning, the length check and
the append).  `false` means the caller sleeps and re-checks later. -/
def acquire_request_step (rl : RateLimiter) (now : ℚ) : RateLimiter × Bool :=
  let bucket := pruneRequests now rl.request_bucket
  if rl.requests_per_minute ≤ bucket.length then
    ({ rl with request_bucket := bucket }, false)
  else
    ({ rl with request_bucket := bucket ++ [now] }, true)

/-- One check of `RateLimiter.acquire_tokens` at time `now` with estimate
`est`.  Mirrors the source control flow: when the budget is exceeded the
caller sleeps and re-checks only if the (pruned) bucket is non-empty;
otherwise the usage is recorded immediately. -/
def acquire_tokens_step (rl : RateLimiter) (now : ℚ) (est : ℕ) :
    RateLimiter × Bool :=
  let bucket := pruneTokens now rl.token_bucket
  let current := (bucket.map (fun e => e.2)).sum
  if rl.tokens_per_minute < current + est ∧ bucket ≠ [] then
    ({ rl with token_bucket := bucket }, false)
  else
    ({ rl with token_bucket := bucket ++ [(now, est)] }, true)

/-- A sequence of `acquire_request` check steps at the given (nondecreasing)
times; returns the final limiter and the history of admitted timestamps. -/
def run_request_trace (rl : RateLimiter) (times : List ℚ) :
    RateLimiter × List ℚ :=
  match times with
  | [] => (rl, [])
  | t :: ts =>
    let step := acquire_request_step rl t
    let rest := run_request_trace step.1 ts
    (rest.1, (if step.2 then [t] else []) ++ rest.2)

/-- A sequence of `acquire_tokens` check steps; returns the final limiter and
the history of admitted `(timestamp, tokens)` usage records. -/
def run_token_trace (rl : RateLimiter) (calls : List (ℚ × ℕ)) :
    RateLimiter × List (ℚ × ℕ) :=
  match calls with
  | [] => (rl, [])
  | c :: cs =>
    let step := acquire_tokens_step rl c.1 c.2
    let rest := run_token_trace step.1 cs
    (rest.1, (if step.2 then [c] else []) ++ rest.2)

/-- Membership of a timestamp in the trailing 60-second window ending at `w`. -/
def inWindow (w : ℚ) : ℚ → Bool :=
  fun t => decide (w - 60 ≤ t ∧ t ≤ w)

/-- Number of admitted request timestamps inside the window ending at `w`. -/
def windowCount (w : ℚ) (hist : List ℚ) : ℕ :=
  hist.countP (inWindow w)

/-- Total admitted token usage inside the window ending at `w`. -/
def windowTokens (w : ℚ) (hist : List (ℚ × ℕ)) : ℕ :=
  ((hist.filter (fun e => inWindow w e.1)).map (fun e => e.2)).sum

/-! Invariant carried along a request-admission trace: the live bucket is a
suffix of the admitted history, everything dropped from it is more than 60
seconds stale, every admitted timestamp is in the past, and every trailing
window holds at most `R` admissions. -/

structure ReqInv (R : ℕ) (tcur : ℚ) (hist bucket : List ℚ) : Prop where
  split : ∃ pre, hist = pre ++ bucket ∧ ∀ t ∈ pre, t < tcur - 60
  upper : ∀ t ∈ hist, t ≤ tcur
  window : ∀ w : ℚ, windowCount w hist ≤ R

lemma windowCount_eq_zero {w : ℚ} {l : List ℚ} (h : ∀ t ∈ l, t < w - 60) :
    windowCount w l = 0 := by
  rw [windowCount, List.countP_eq_zero]
  intro a ha
  simp only [inWindow, decide_eq_true_eq, not_and]
  intro hw
  exact absurd hw (not_le.mpr (h a ha))

lemma windowCount_append (w : ℚ) (l₁ l₂ : List ℚ) :
    windowCount w (l₁ ++ l₂) = windowCount w l₁ + windowCount w l₂ :=
  List.countP_append _ _ _

lemma windowCount_le_length (w : ℚ) (l : List ℚ) :
    windowCount w l ≤ l.length :=
  List.countP_le_length _

lemma mem_pruneRequests_dropped {now : ℚ} {bucket : List ℚ} {t : ℚ}
    (h : t ∈ bucket.takeWhile (fun t => decide (60 < now - t))) :
    t < now - 60 := by
  have := List.mem_takeWhile_imp h
  simp only [decide_eq_true_eq] at this
  linarith

lemma acquire_request_step_full {rl : RateLimiter} {now : ℚ}
    (h : rl.requests_per_minute ≤ (pruneRequests now rl.request_bucket).length) :
    acquire_request_step rl now =
      ({ rl with request_bucket := pruneRequests now rl.request_bucket }, false) := by
  simp [acquire_request_step, h]

lemma acquire_request_step_free {rl : RateLimiter} {now : ℚ}
    (h : ¬rl.requests_per_minute ≤ (pruneRequests now rl.request_bucket).length) :
    acquire_request_step rl now =
      ({ rl with request_bucket := pruneRequests now rl.request_bucket ++ [now] },
        true) := by
  simp [acquire_request_step, h]

/-- Preservation of `ReqInv` by one `acquire_request` check step. -/
lemma req_inv_step {R : ℕ} {rl : RateLimiter} (hR : rl.requests_per_minute = R)
    {tcur now : ℚ} {hist : List ℚ}
    (hinv : ReqInv R tcur hist rl.request_bucket) (hle : tcur ≤ now) :
    ReqInv R now
      (hist ++ (if (acquire_request_step rl now).2 then [now] else []))
      (acquire_request_step rl now).1.request_bucket := by
  obtain ⟨pre, hsplit, hpre⟩ := hinv.split
  have hbucket : rl.request_bucket =
      rl.request_bucket.takeWhile (fun t => decide (60 < now - t)) ++
        pruneRequests now rl.request_bucket := by
    rw [pruneRequests, List.takeWhile_append_dropWhile]
  have hpre' : ∀ t ∈ pre ++ rl.request_bucket.takeWhile (fun t => decide (60 < now - t)),
      t < now - 60 := by
    intro t ht
    rcases List.mem_append.mp ht with h | h
    · have := hpre t h; linarith
    · exact mem_pruneRequests_dropped h
  have hupper' : ∀ t ∈ hist, t ≤ now := fun t ht => le_trans (hinv.upper t ht) hle
  have hhist : hist =
      (pre ++ rl.request_bucket.takeWhile (fun t => decide (60 < now - t))) ++
        pruneRequests now rl.request_bucket := by
    conv_lhs => rw [hsplit]
    conv_lhs => rw [hbucket]
    rw [List.append_assoc]
  by_cases h : rl.requests_per_minute ≤ (pruneRequests now rl.request_bucket).length
  · -- saturation: no admission, bucket pruned only
    rw [acquire_request_step_full h]
    simp only [List.append_nil, Bool.false_eq_true, if_false]
    exact ⟨⟨_, hhist, hpre'⟩, hupper', hinv.window⟩
  · -- admission: pruned count is < R, timestamp appended
    rw [acquire_request_step_free h]
    simp only [if_true]
    constructor
    · refine ⟨pre ++ rl.request_bucket.takeWhile (fun t => decide (60 < now - t)),
        ?_, hpre'⟩
      rw [hhist, List.append_assoc]
    · intro t ht
      rcases List.mem_append.mp ht with h' | h'
      · exact hupper' t h'
      · simp at h'; simp [h']
    · intro w
      rw [windowCount_append]
      by_cases hw : w - 60 ≤ now ∧ now ≤ w
      · -- the window contains the newly admitted timestamp
        have hcount : windowCount w hist ≤ (pruneRequests now rl.request_bucket).length := by
          rw [hhist, windowCount_append]
          have hzero : windowCount w
              (pre ++ rl.request_bucket.takeWhile (fun t => decide (60 < now - t))) = 0 := by
            apply windowCount_eq_zero
            intro t ht
            have := hpre' t ht
            linarith [hw.1]
          rw [hzero, Nat.zero_add]
          exact windowCount_le_length w _
        have hlt : (pruneRequests now rl.request_bucket).length < R := by
          rw [← hR]; exact lt_of_not_le h
        have hone : windowCount w [now] ≤ 1 := windowCount_le_length w [now]
        omega
      · have hzero : windowCount w [now] = 0 := by
          rw [windowCount, List.countP_eq_zero]
          intro a ha
          simp at ha
          subst ha
          simp only [inWindow, decide_eq_true_eq]
          exact hw
        rw [hzero]
        simpa using hinv.window w

/-- The request-window invariant holds after any nondecreasing sequence of
check times starting from a state satisfying it. -/
lemma run_request_trace_inv {R : ℕ} (rl : RateLimiter)
    (hR : rl.requests_per_minute = R) (hist : List ℚ) (tcur : ℚ)
    (times : List ℚ) (hsort : times.Sorted (· ≤ ·))
    (hfut : ∀ t ∈ times, tcur ≤ t)
    (hinv : ReqInv R tcur hist rl.request_bucket) :
    ∀ w : ℚ, windowCount w (hist ++ (run_request_trace rl times).2) ≤ R := by
  induction times generalizing rl hist tcur with
  | nil =>
    intro w
    simpa [run_request_trace] using hinv.window w
  | cons t ts ih =>
    intro w
    have hstep := req_inv_step hR hinv (hfut t (List.mem_cons_self t ts))
    have hsort' : ts.Sorted (· ≤ ·) := hsort.of_cons
    have hfut' : ∀ t' ∈ ts, t ≤ t' := fun t' ht' =>
      (List.sorted_cons.mp hsort).1 t' ht'
    have hstepR : (acquire_request_step rl t).1.requests_per_minute = R := by
      rw [← hR]
      by_cases h : rl.requests_per_minute ≤ (pruneRequests t rl.request_bucket).length
      · rw [acquire_request_step_full h]
      · rw [acquire_request_step_free h]
    have := ih (acquire_request_step rl t).1 hstepR
      (hist ++ (if (acquire_request_step rl t).2 then [t] else [])) t
      hsort' hfut' hstep w
    simpa [run_request_trace, List.append_assoc] using this

/-! Token-budget side of the limiter.  The invariant mirrors `ReqInv` with
token sums in place of counts. -/

structure TokInv (T : ℕ) (tcur : ℚ) (hist bucket : List (ℚ × ℕ)) : Prop where
  split : ∃ pre, hist = pre ++ bucket ∧ ∀ e ∈ pre, e.1 < tcur - 60
  upper : ∀ e ∈ hist, e.1 ≤ tcur
  window : ∀ w : ℚ, windowTokens w hist ≤ T

lemma windowTokens_eq_zero {w : ℚ} {l : List (ℚ × ℕ)}
    (h : ∀ e ∈ l, e.1 < w - 60) : windowTokens w l = 0 := by
  rw [windowTokens]
  have : l.filter (fun e => inWindow w e.1) = [] := by
    rw [List.filter_eq_nil_iff]
    intro e he
    simp only [inWindow, decide_eq_true_eq, not_and]
    intro hw
    exact absurd hw (not_le.mpr (h e he))
  rw [this]
  simp

lemma windowTokens_append (w : ℚ) (l₁ l₂ : List (ℚ × ℕ)) :
    windowTokens w (l₁ ++ l₂) = windowTokens w l₁ + windowTokens w l₂ := by
  simp [windowTokens, List.filter_append]

lemma windowTokens_le_sum (w : ℚ) (l : List (ℚ × ℕ)) :
    windowTokens w l ≤ (l.map (fun e => e.2)).sum := by
  simp only [windowTokens]
  induction l with
  | nil => simp
  | cons a l ih =>
    rw [List.filter_cons]
    cases h : inWindow w a.1
    · simp only [Bool.false_eq_true, if_false, List.map_cons, List.sum_cons]
      omega
    · simp
      omega

lemma mem_pruneTokens_dropped {now : ℚ} {bucket : List (ℚ × ℕ)} {e : ℚ × ℕ}
    (h : e ∈ bucket.takeWhile (fun e => decide (60 < now - e.1))) :
    e.1 < now - 60 := by
  have := List.mem_takeWhile_imp h
  simp only [decide_eq_true_eq] at this
  linarith

lemma acquire_tokens_step_wait {rl : RateLimiter} {now : ℚ} {est : ℕ}
    (h : rl.tokens_per_minute <
        ((pruneTokens now rl.token_bucket).map (fun e => e.2)).sum + est ∧
      pruneTokens now rl.token_bucket ≠ []) :
    acquire_tokens_step rl now est =
      ({ rl with token_bucket := pruneTokens now rl.token_bucket }, false) := by
  simp only [acquire_tokens_step, if_pos h]

lemma acquire_tokens_step_record {rl : RateLimiter} {now : ℚ} {est : ℕ}
    (h : ¬(rl.tokens_per_minute <
        ((pruneTokens now rl.token_bucket).map (fun e => e.2)).sum + est ∧
      pruneTokens now rl.token_bucket ≠ [])) :
    acquire_tokens_step rl now est =
      ({ rl with token_bucket := pruneTokens now rl.token_bucket ++ [(now, est)] },
        true) := by
  simp only [acquire_tokens_step, if_neg h]

/-- Preservation of `TokInv` by one `acquire_tokens` check step whose estimate
fits the budget on its own. -/
lemma tok_inv_step {T : ℕ} {rl : RateLimiter} (hT : rl.tokens_per_minute = T)
    {tcur now : ℚ} {est : ℕ} {hist : List (ℚ × ℕ)}
    (hinv : TokInv T tcur hist rl.token_bucket) (hle : tcur ≤ now)
    (hest : est ≤ T) :
    TokInv T now
      (hist ++ (if (acquire_tokens_step rl now est).2 then [(now, est)] else []))
      (acquire_tokens_step rl now est).1.token_bucket := by
  obtain ⟨pre, hsplit, hpre⟩ := hinv.split
  have hbucket : rl.token_bucket =
      rl.token_bucket.takeWhile (fun e => decide (60 < now - e.1)) ++
        pruneTokens now rl.token_bucket := by
    rw [pruneTokens, List.takeWhile_append_dropWhile]
  have hpre' : ∀ e ∈ pre ++ rl.token_bucket.takeWhile (fun e => decide (60 < now - e.1)),
      e.1 < now - 60 := by
    intro e he
    rcases List.mem_append.mp he with h | h
    · have := hpre e h; linarith
    · exact mem_pruneTokens_dropped h
  have hupper' : ∀ e ∈ hist, e.1 ≤ now := fun e he => le_trans (hinv.upper e he) hle
  have hhist : hist =
      (pre ++ rl.token_bucket.takeWhile (fun e => decide (60 < now - e.1))) ++
        pruneTokens now rl.token_bucket := by
    conv_lhs => rw [hsplit]
    conv_lhs => rw [hbucket]
    rw [List.append_assoc]
  have hhistw : ∀ w : ℚ, w - 60 ≤ now → now ≤ w →
      windowTokens w hist ≤ ((pruneTokens now rl.token_bucket).map (fun e => e.2)).sum := by
    intro w hw1 hw2
    rw [hhist, windowTokens_append]
    have hzero : windowTokens w
        (pre ++ rl.token_bucket.takeWhile (fun e => decide (60 < now - e.1))) = 0 := by
      apply windowTokens_eq_zero
      intro e he
      have := hpre' e he
      linarith
    rw [hzero, Nat.zero_add]
    exact windowTokens_le_sum w _
  by_cases h : rl.tokens_per_minute <
      ((pruneTokens now rl.token_bucket).map (fun e => e.2)).sum + est ∧
      pruneTokens now rl.token_bucket ≠ []
  · -- budget exceeded with a non-empty window: sleep and re-check
    rw [acquire_tokens_step_wait h]
    simp only [Bool.false_eq_true, if_false, List.append_nil]
    exact ⟨⟨_, hhist, hpre'⟩, hupper', hinv.window⟩
  · -- usage recorded
    rw [acquire_tokens_step_record h]
    simp only [if_true]
    constructor
    · refine ⟨pre ++ rl.token_bucket.takeWhile (fun e => decide (60 < now - e.1)),
        ?_, hpre'⟩
      rw [hhist, List.append_assoc]
    · intro e he
      rcases List.mem_append.mp he with h' | h'
      · exact hupper' e h'
      · simp at h'; simp [h']
    · intro w
      rw [windowTokens_append]
      by_cases hw : w - 60 ≤ now ∧ now ≤ w
      · have hsingle : windowTokens w [(now, est)] = est := by
          simp only [windowTokens, List.filter_cons, inWindow, decide_eq_true_eq]
          rw [if_pos hw]
          simp
        rw [hsingle]
        rcases not_and_or.mp h with h' | h'
        · -- the pruned-window total plus the estimate fits the budget
          have hfit : ((pruneTokens now rl.token_bucket).map (fun e => e.2)).sum + est ≤ T := by
            rw [← hT]; omega
          have := hhistw w hw.1 hw.2
          omega
        · -- empty pruned window: only the new record contributes
          have hempty : pruneTokens now rl.token_bucket = [] := not_not.mp h'
          have := hhistw w hw.1 hw.2
          rw [hempty] at this
          simp at this
          omega
      · have hzero : windowTokens w [(now, est)] = 0 := by
          simp only [windowTokens, List.filter_cons, inWindow, decide_eq_true_eq]
          rw [if_neg hw]
          simp
        rw [hzero]
        simpa using hinv.window w

/-- The token-window invariant holds after any nondecreasing sequence of
check calls whose individual estimates fit the budget. -/
lemma run_token_trace_inv {T : ℕ} (rl : RateLimiter)
    (hT : rl.tokens_per_minute = T) (hist : List (ℚ × ℕ)) (tcur : ℚ)
    (calls : List (ℚ × ℕ)) (hsort : calls.Pairwise (fun a b => a.1 ≤ b.1))
    (hfut : ∀ c ∈ calls, tcur ≤ c.1) (hest : ∀ c ∈ calls, c.2 ≤ T)
    (hinv : TokInv T tcur hist rl.token_bucket) :
    ∀ w : ℚ, windowTokens w (hist ++ (run_token_trace rl calls).2) ≤ T := by
  induction calls generalizing rl hist tcur with
  | nil =>
    intro w
    simpa [run_token_trace] using hinv.window w
  | cons c cs ih =>
    intro w
    have hstep := tok_inv_step hT hinv (hfut c (List.mem_cons_self c cs))
      (hest c (List.mem_cons_self c cs))
    have hstepT : (acquire_tokens_step rl c.1 c.2).1.tokens_per_minute = T := by
      rw [← hT]
      by_cases h : rl.tokens_per_minute <
          ((pruneTokens c.1 rl.token_bucket).map (fun e => e.2)).sum + c.2 ∧
          pruneTokens c.1 rl.token_bucket ≠ []
      · rw [acquire_tokens_step_wait h]
      · rw [acquire_tokens_step_record h]
    have := ih (acquire_tokens_step rl c.1 c.2).1 hstepT
      (hist ++ (if (acquire_tokens_step rl c.1 c.2).2 then [(c.1, c.2)] else [])) c.1
      (List.pairwise_cons.mp hsort).2
      (fun c' hc' => (List.pairwise_cons.mp hsort).1 c' hc')
      (fun c' hc' => hest c' (List.mem_cons_of_mem c hc'))
      hstep w
    simpa [run_token_trace, List.append_assoc] using this

/-- C1: for any sequence of `acquire_request` admission checks on one
provider's limiter configured with `requests_per_minute = R`, at
nondecreasing (nonnegative) times, the number of admitted request timestamps
inside any trailing 60-second window never exceeds `R`: a timestamp is
appended only after the trailing-60s count was checked to be strictly below
`R`, and a saturated check admits nothing (the caller sleeps and re-checks at
a later time, which appears as a later entry of `times`). -/
theorem acquire_request_window_bound (R T : ℕ) (times : List ℚ)
    (hsort : times.Sorted (· ≤ ·)) (hnn : ∀ t ∈ times, 0 ≤ t) :
    ∀ w : ℚ, windowCount w (run_request_trace (RateLimiter.init R T) times).2 ≤ R := by
  have h0 : ReqInv R 0 [] (RateLimiter.init R T).request_bucket := by
    refine ⟨⟨[], by simp [RateLimiter.init], by simp⟩, by simp, ?_⟩
    intro w
    simp [windowCount]
  have := run_request_trace_inv (RateLimiter.init R T) rfl [] 0 times hsort hnn h0
  intro w
  simpa using this w

/-- Witness for C1: three admission checks at times 0, 1 and 61 against a
limit of one request per minute; every trailing window holds at most one
admitted timestamp. -/
theorem acquire_request_window_bound_witness :
    windowCount 61 (run_request_trace (RateLimiter.init 1 0) [0, 1, 61]).2 ≤ 1 :=
  acquire_request_window_bound 1 0 [0, 1, 61] (by decide) (by decide) 61

/-- C7 counterexample: with the default budget of 40000 tokens per minute and
an empty window, `acquire_tokens(40001)` does not wait — the over-budget usage
is recorded immediately (the sleep-and-re-check branch requires a non-empty
bucket), and the trailing window then holds 40001 > 40000 tokens. -/
theorem acquire_tokens_step_over_budget :
    (acquire_tokens_step (RateLimiter.init 60 40000) 0 40001).2 = true ∧
      windowTokens 0
        ((acquire_tokens_step (RateLimiter.init 60 40000) 0 40001).1.token_bucket) =
        40001 ∧
      40000 < 40001 := by
  refine ⟨?_, ?_, by norm_num⟩
  · decide
  · have h : (acquire_tokens_step (RateLimiter.init 60 40000) 0 40001).1.token_bucket =
        [(0, 40001)] := by
      simp [acquire_tokens_step, RateLimiter.init, pruneTokens]
    rw [h]
    simp [windowTokens, inWindow]

/-- C7 (amended): usage is recorded only once the trailing-window total plus
the estimate is within the budget **or the (pruned) trailing window is
empty**; a saturated check with a non-empty window admits nothing and the
caller re-checks later.  Consequently, provided every single estimate is at
most the budget `T`, the recorded token total over any trailing 60-second
window never exceeds `T`; a single estimate above `T` is admitted against an
empty window and the total then exceeds `T`. -/
theorem acquire_tokens_window_bound (Rq T : ℕ) (calls : List (ℚ × ℕ))
    (hsort : calls.Pairwise (fun a b => a.1 ≤ b.1))
    (hnn : ∀ c ∈ calls, 0 ≤ c.1) (hest : ∀ c ∈ calls, c.2 ≤ T) :
    ∀ w : ℚ, windowTokens w (run_token_trace (RateLimiter.init Rq T) calls).2 ≤ T := by
  have h0 : TokInv T 0 [] (RateLimiter.init Rq T).token_bucket := by
    refine ⟨⟨[], by simp [RateLimiter.init], by simp⟩, by simp, ?_⟩
    intro w
    simp [windowTokens]
  have := run_token_trace_inv (RateLimiter.init Rq T) rfl [] 0 calls hsort hnn hest h0
  intro w
  simpa using this w

/-- Witness for the amended C7: two admissions of 30 tokens against a budget
of 50 at times 0 and 1; every trailing window stays within the budget. -/
theorem acquire_tokens_window_bound_witness :
    windowTokens 1 (run_token_trace (RateLimiter.init 60 50) [(0, 30), (1, 30)]).2 ≤ 50 :=
  acquire_tokens_window_bound 60 50 [(0, 30), (1, 30)]
    (by decide) (by decide) (by decide) 1

/-! ### Token estimation and retry wrapper
(`openai.py`, `OpenAIProvider._estimate_tokens` and
`OpenAIProvider._make_request_with_retry`)

Python strings are modelled as `List Char` here because character counts
matter.  The wrapped `request_func` is modelled by the outcome of its `i`-th
invocation: `Except.ok` a value, or `Except.error` one of the exception
classes the retry loop distinguishes. -/

structure ChatMessage where
  role : String
  content : List Char
deriving Repr, DecidableEq

/-- `" ".join(msg.get("content", "") for msg in kwargs["messages"])` -/
def promptText (msgs : List ChatMessage) : List Char :=
  List.intercalate [' '] (msgs.map (fun m => m.content))

/-- `OpenAIProvider._estimate_tokens`: `max(1, len(text) // 4)`. -/
def estimate_tokens (text : List Char) : ℕ :=
  max 1 (text.length / 4)

/-- The admission estimate of `_make_request_with_retry`:
`self._estimate_tokens(prompt_text) + kwargs.get("max_tokens", 150)`. -/
def wrapperEstimate (msgs : List ChatMessage) (maxTokens : ℕ) : ℕ :=
  estimate_tokens (promptText msgs) + maxTokens

/-- The exception classes distinguished by the retry loop:
`openai.RateLimitError`, `openai.APIError` (with its optional HTTP status),
and any other `Exception`. -/
inductive OAIError where
  | rateLimited : OAIError
  | apiError : Option ℕ → OAIError
  | other : OAIError
deriving Repr, DecidableEq

/-- Outcome of `_make_request_with_retry` together with the number of times
the wrapped call was invoked.  `runtimeError` is the
`RuntimeError("OpenAI request failed for unknown reason")` path
(`max_retries = 0`). -/
inductive RetryResult (α : Type) where
  | ok : α → ℕ → RetryResult α
  | failed : OAIError → ℕ → RetryResult α
  | runtimeError : RetryResult α
deriving Repr, DecidableEq

/-- Observable actions of one `_make_request_with_retry` call, in order. -/
inductive CallEvent where
  | acquireRequest : CallEvent
  | acquireTokens : ℕ → CallEvent
  | invoke : ℕ → CallEvent
  | sleep : ℚ → CallEvent
deriving Repr, DecidableEq

def CallEvent.isAdmission : CallEvent → Bool
  | CallEvent.acquireRequest => true
  | CallEvent.acquireTokens _ => true
  | _ => false

def CallEvent.isInvoke : CallEvent → Bool
  | CallEvent.invoke _ => true
  | _ => false

/-- `status_code is not None and status_code >= 500` -/
def statusRetryable : Option ℕ → Bool
  | some st => decide (500 ≤ st)
  | none => false

/-- The `for attempt in range(self.max_retries)` loop of
`_make_request_with_retry`, as a function of the remaining iterations
(`fuel`), the current attempt index and the `last_error` accumulator.
Returns the emitted events and the outcome.  A `RateLimitError` always
continues the loop (sleeping except on the final attempt); an `APIError`
always continues the loop (sleeping only for a 5xx status before the final
attempt); any other exception breaks immediately. -/
def retry_go {α : Type} (f : ℕ → Except OAIError α) (maxRetries : ℕ)
    (retryDelay : ℚ) : ℕ → ℕ → Option OAIError → List CallEvent × RetryResult α
  | attempt, 0, lastError =>
    ([], match lastError with
         | some e => RetryResult.failed e attempt
         | none => RetryResult.runtimeError)
  | attempt, fuel + 1, _lastError =>
    match f attempt with
    | Except.ok v => ([CallEvent.invoke attempt], RetryResult.ok v (attempt + 1))
    | Except.error OAIError.rateLimited =>
      let rest := retry_go f maxRetries retryDelay (attempt + 1) fuel
        (some OAIError.rateLimited)
      (CallEvent.invoke attempt ::
        ((if attempt + 1 < maxRetries
          then [CallEvent.sleep (retryDelay * 2 ^ attempt)] else []) ++ rest.1),
       rest.2)
    | Except.error (OAIError.apiError s) =>
      let rest := retry_go f maxRetries retryDelay (attempt + 1) fuel
        (some (OAIError.apiError s))
      (CallEvent.invoke attempt ::
        ((if attempt + 1 < maxRetries ∧ statusRetryable s
          then [CallEvent.sleep (retryDelay * 2 ^ attempt)] else []) ++ rest.1),
       rest.2)
    | Except.error OAIError.other =>
      ([CallEvent.invoke attempt], RetryResult.failed OAIError.other (attempt + 1))

/-- `OpenAIProvider._make_request_with_retry`: estimate tokens from the
joined message contents, acquire admission once, then run the retry loop. -/
def make_request_with_retry {α : Type} (msgs : List ChatMessage)
    (maxTokens : ℕ) (f : ℕ → Except OAIError α) (maxRetries : ℕ)
    (retryDelay : ℚ) : List CallEvent × RetryResult α :=
  let est := wrapperEstimate msgs maxTokens
  let r := retry_go f maxRetries retryDelay 0 maxRetries none
  (CallEvent.acquireRequest :: CallEvent.acquireTokens est :: r.1, r.2)

/-- If every invocation fails with a loop-continuing error (`RateLimitError`
or `APIError`), the loop exhausts its attempts and surfaces that error after
exactly `fuel` further invocations. -/
lemma retry_go_exhaust {α : Type} (f : ℕ → Except OAIError α) (M : ℕ) (d : ℚ)
    (e : OAIError) (he : e ≠ OAIError.other) :
    ∀ fuel attempt last, 0 < fuel → (∀ i < fuel, f (attempt + i) = Except.error e) →
    (retry_go f M d attempt fuel last).2 = RetryResult.failed e (attempt + fuel) := by
  intro fuel
  induction fuel with
  | zero => intro attempt last h; exact absurd h (by simp)
  | succ n ih =>
    intro attempt last _ hfail
    have h0 : f attempt = Except.error e := by simpa using hfail 0 (Nat.succ_pos n)
    match he' : e with
    | OAIError.rateLimited =>
      rw [retry_go, h0]
      cases n with
      | zero => simp [retry_go]
      | succ m =>
        have := ih (attempt + 1) (some OAIError.rateLimited) (Nat.succ_pos m)
          (fun i hi => by
            have := hfail (i + 1) (by omega)
            simpa [Nat.add_assoc, Nat.add_comm 1 i] using this)
        simp only [this]
        congr 1
        omega
    | OAIError.apiError s =>
      rw [retry_go, h0]
      cases n with
      | zero => simp [retry_go]
      | succ m =>
        have := ih (attempt + 1) (some (OAIError.apiError s)) (Nat.succ_pos m)
          (fun i hi => by
            have := hfail (i + 1) (by omega)
            simpa [Nat.add_assoc, Nat.add_comm 1 i] using this)
        simp only [this]
        congr 1
        omega
    | OAIError.other => exact absurd rfl he

/-- If the first `N` invocations fail with a loop-continuing error and
invocation `N` succeeds within the attempt budget, the loop returns the
success after exactly `N + 1` invocations. -/
lemma retry_go_success {α : Type} (f : ℕ → Except OAIError α) (M : ℕ) (d : ℚ)
    (e : OAIError) (he : e ≠ OAIError.other) (v : α) :
    ∀ N attempt fuel last, (∀ i < N, f (attempt + i) = Except.error e) →
    f (attempt + N) = Except.ok v → N < fuel →
    (retry_go f M d attempt fuel last).2 = RetryResult.ok v (attempt + N + 1) := by
  intro N
  induction N with
  | zero =>
    intro attempt fuel last _ hsucc hlt
    obtain ⟨n, rfl⟩ := Nat.exists_eq_succ_of_ne_zero (Nat.pos_iff_ne_zero.mp hlt)
    rw [retry_go]
    simp only [Nat.add_zero] at hsucc
    rw [hsucc]
  | succ N ih =>
    intro attempt fuel last hfail hsucc hlt
    obtain ⟨n, rfl⟩ := Nat.exists_eq_succ_of_ne_zero
      (Nat.pos_iff_ne_zero.mp (Nat.lt_of_le_of_lt (Nat.zero_le _) hlt))
    have h0 : f attempt = Except.error e := by simpa using hfail 0 (Nat.succ_pos N)
    have hrec : ∀ last', (retry_go f M d (attempt + 1) n last').2 =
        RetryResult.ok v (attempt + 1 + N + 1) := by
      intro last'
      exact ih (attempt + 1) n last'
        (fun i hi => by
          have := hfail (i + 1) (by omega)
          simpa [Nat.add_assoc, Nat.add_comm 1 i] using this)
        (by
          have : attempt + 1 + N = attempt + (N + 1) := by omega
          rw [this]; exact hsucc)
        (by omega)
    match he' : e with
    | OAIError.rateLimited =>
      rw [retry_go, h0]
      have := hrec (some OAIError.rateLimited)
      simp only [this]
      congr 1
      omega
    | OAIError.apiError s =>
      rw [retry_go, h0]
      have := hrec (some (OAIError.apiError s))
      simp only [this]
      congr 1
      omega
    | OAIError.other => exact absurd rfl he

/-- An exception that is neither a `RateLimitError` nor an `APIError` breaks
the loop: exactly one further invocation, and that error is surfaced. -/
lemma retry_go_break {α : Type} (f : ℕ → Except OAIError α) (M : ℕ) (d : ℚ)
    (attempt fuel : ℕ) (last : Option OAIError) (hfuel : 0 < fuel)
    (h : f attempt = Except.error OAIError.other) :
    (retry_go f M d attempt fuel last).2 =
      RetryResult.failed OAIError.other (attempt + 1) := by
  obtain ⟨n, rfl⟩ := Nat.exists_eq_succ_of_ne_zero (Nat.pos_iff_ne_zero.mp hfuel)
  rw [retry_go, h]

/-- The retry loop itself emits no admission events: any event predicate that
holds neither of `invoke` nor of `sleep` counts zero occurrences. -/
lemma retry_go_no_admission {α : Type} (f : ℕ → Except OAIError α) (M : ℕ)
    (d : ℚ) (p : CallEvent → Bool) (hinv : ∀ a, p (CallEvent.invoke a) = false)
    (hslp : ∀ q, p (CallEvent.sleep q) = false) :
    ∀ fuel attempt last, (retry_go f M d attempt fuel last).1.countP p = 0 := by
  intro fuel
  induction fuel with
  | zero => intro attempt last; simp [retry_go]
  | succ n ih =>
    intro attempt last
    rw [retry_go]
    cases hf : f attempt with
    | ok v => simp [List.countP_cons, hinv]
    | error e =>
      cases e with
      | rateLimited =>
        by_cases hc : attempt + 1 < M <;>
          simp [hc, List.countP_cons, List.countP_append, hinv, hslp, ih]
      | apiError s =>
        by_cases hc : attempt + 1 < M ∧ statusRetryable s <;>
          simp [hc, List.countP_cons, List.countP_append, hinv, hslp, ih]
      | other => simp [List.countP_cons, hinv]

/-- C3: with `max_attempts = N + 1`, `N` consecutive `RateLimited` failures
followed by a success yield that success after exactly `N + 1` invocations of
the wrapped call; with `max_attempts = N` (`N ≥ 1`) and `N` consecutive
`RateLimited` failures, the wrapper surfaces the last `RateLimited` error
after exactly `N` invocations. -/
theorem retry_attempt_counts {α : Type} (f : ℕ → Except OAIError α) (N : ℕ)
    (v : α) (msgs : List ChatMessage) (maxTokens : ℕ) (d : ℚ)
    (hfail : ∀ i < N, f i = Except.error OAIError.rateLimited)
    (hsucc : f N = Except.ok v) :
    (make_request_with_retry msgs maxTokens f (N + 1) d).2 =
      RetryResult.ok v (N + 1) ∧
    (1 ≤ N → (make_request_with_retry msgs maxTokens f N d).2 =
      RetryResult.failed OAIError.rateLimited N) := by
  constructor
  · have := retry_go_success f (N + 1) d OAIError.rateLimited (by decide) v N 0
      (N + 1) none (by simpa using hfail) (by simpa using hsucc)
      (Nat.lt_succ_self N)
    simpa [make_request_with_retry] using this
  · intro hN
    have := retry_go_exhaust f N d OAIError.rateLimited (by decide) N 0 none hN
      (by simpa using hfail)
    simpa [make_request_with_retry] using this

/-- Witness for C3 at `N = 2`: two rate-limit failures then a success. -/
theorem retry_attempt_counts_witness :
    (make_request_with_retry [] 150
        (fun i => if i < 2 then Except.error OAIError.rateLimited
                  else Except.ok (42 : ℕ)) 3 1).2 = RetryResult.ok 42 3 ∧
    (1 ≤ 2 → (make_request_with_retry [] 150
        (fun i => if i < 2 then Except.error OAIError.rateLimited
                  else Except.ok (42 : ℕ)) 2 1).2 =
      RetryResult.failed OAIError.rateLimited 2) :=
  retry_attempt_counts
    (fun i => if i < 2 then Except.error OAIError.rateLimited
              else Except.ok (42 : ℕ))
    2 42 [] 150 1
    (fun i hi => by
      have hcase : i = 0 ∨ i = 1 := by omega
      rcases hcase with rfl | rfl <;> rfl)
    (by rfl)

/-- C4 counterexample: a persistent `APIError` with status 404 (the class of
an invalid-model failure) is *not* fatal to the loop: with `max_retries = 3`
the wrapped call is invoked 3 times, not once. -/
theorem api_error_404_retried :
    (make_request_with_retry [] 150
        (fun _ => (Except.error (OAIError.apiError (some 404)) :
          Except OAIError ℕ)) 3 1).2 =
      RetryResult.failed (OAIError.apiError (some 404)) 3 ∧ (3 : ℕ) ≠ 1 := by
  constructor
  · have := retry_go_exhaust
      (fun _ => (Except.error (OAIError.apiError (some 404)) : Except OAIError ℕ))
      3 1 (OAIError.apiError (some 404)) (by decide) 3 0 none (by decide)
      (fun i _ => rfl)
    simpa [make_request_with_retry] using this
  · decide

/-- C4 (amended): the loop's fatality asymmetry — only an exception that is
neither a `RateLimitError` nor an `APIError` is never retried (the loop
breaks after exactly one invocation and surfaces it); an `APIError` of any
status, non-5xx included, keeps the loop running (merely without a backoff
sleep), so a persistent `APIError` is invoked `max_attempts` times and the
last error surfaced. -/
theorem fatal_error_classification {α : Type} (f : ℕ → Except OAIError α)
    (msgs : List ChatMessage) (maxTokens maxRetries : ℕ) (d : ℚ)
    (s : Option ℕ) (hM : 1 ≤ maxRetries) :
    (f 0 = Except.error OAIError.other →
      (make_request_with_retry msgs maxTokens f maxRetries d).2 =
        RetryResult.failed OAIError.other 1) ∧
    ((∀ i, f i = Except.error (OAIError.apiError s)) →
      (make_request_with_retry msgs maxTokens f maxRetries d).2 =
        RetryResult.failed (OAIError.apiError s) maxRetries) := by
  constructor
  · intro h
    have := retry_go_break f maxRetries d 0 maxRetries none hM h
    simpa [make_request_with_retry] using this
  · intro h
    have := retry_go_exhaust f maxRetries d (OAIError.apiError s)
      (fun hcon => OAIError.noConfusion hcon)
      maxRetries 0 none hM (fun i _ => by simp only [Nat.zero_add]; exact h i)
    simpa [make_request_with_retry] using this

/-- Witness for the amended C4: a persistent 404 `APIError` with three
attempts. -/
theorem fatal_error_classification_witness :
    ((fun (_ : ℕ) => (Except.error (OAIError.apiError (some 404)) :
        Except OAIError ℕ)) 0 = Except.error OAIError.other →
      (make_request_with_retry [] 150
        (fun (_ : ℕ) => (Except.error (OAIError.apiError (some 404)) :
          Except OAIError ℕ)) 3 1).2 = RetryResult.failed OAIError.other 1) ∧
    ((∀ i, (fun (_ : ℕ) => (Except.error (OAIError.apiError (some 404)) :
        Except OAIError ℕ)) i = Except.error (OAIError.apiError (some 404))) →
      (make_request_with_retry [] 150
        (fun (_ : ℕ) => (Except.error (OAIError.apiError (some 404)) :
          Except OAIError ℕ)) 3 1).2 =
        RetryResult.failed (OAIError.apiError (some 404)) 3) :=
  fatal_error_classification
    (fun (_ : ℕ) => (Except.error (OAIError.apiError (some 404)) : Except OAIError ℕ))
    [] 150 3 1 (some 404) (by decide)

/-- C5 counterexample: one `RateLimited` failure then a success, with
`max_retries = 3`: the wrapped call is invoked twice, but the request-slot
admission is acquired only once (before the first attempt), so invocations
and admission acquisitions differ. -/
theorem retry_admission_not_fresh :
    (make_request_with_retry [] 150
        (fun i => if i = 0 then Except.error OAIError.rateLimited
                  else Except.ok (7 : ℕ)) 3 1).1.countP CallEvent.isInvoke = 2 ∧
    (make_request_with_retry [] 150
        (fun i => if i = 0 then Except.error OAIError.rateLimited
                  else Except.ok (7 : ℕ)) 3 1).1.countP
      (fun ev => decide (ev = CallEvent.acquireRequest)) = 1 ∧
    (2 : ℕ) ≠ 1 := by
  refine ⟨?_, ?_, by decide⟩
  · decide
  · decide

/-- C5 (amended): admission is acquired exactly once per wrapper call — one
request-slot and one token-budget acquisition, emitted before the first
invocation — regardless of how many attempts the retry loop makes; a retried
attempt reuses the original admission instead of requesting a fresh one. -/
theorem admission_once_per_call {α : Type} (msgs : List ChatMessage)
    (maxTokens : ℕ) (f : ℕ → Except OAIError α) (maxRetries : ℕ) (d : ℚ) :
    (make_request_with_retry msgs maxTokens f maxRetries d).1.countP
        (fun ev => decide (ev = CallEvent.acquireRequest)) = 1 ∧
    (make_request_with_retry msgs maxTokens f maxRetries d).1.countP
        CallEvent.isAdmission = 2 ∧
    (make_request_with_retry msgs maxTokens f maxRetries d).1.take 2 =
      [CallEvent.acquireRequest,
        CallEvent.acquireTokens (wrapperEstimate msgs maxTokens)] := by
  refine ⟨?_, ?_, by simp [make_request_with_retry]⟩
  · have := retry_go_no_admission f maxRetries d
      (fun ev => decide (ev = CallEvent.acquireRequest))
      (fun a => by simp) (fun q => by simp) maxRetries 0 none
    simp [make_request_with_retry, List.countP_cons, this]
  · have := retry_go_no_admission f maxRetries d CallEvent.isAdmission
      (fun a => rfl) (fun q => rfl) maxRetries 0 none
    simp [make_request_with_retry, List.countP_cons, this, CallEvent.isAdmission]

/-- Length of contents joined by a single space: the sum of the content
lengths plus one separator between consecutive messages. -/
lemma length_intercalate_space (ls : List (List Char)) :
    ls ≠ [] →
    (List.intercalate [' '] ls).length = (ls.map List.length).sum + (ls.length - 1) := by
  induction ls with
  | nil => intro h; exact absurd rfl h
  | cons a ls ih =>
    intro _
    cases ls with
    | nil => simp [List.intercalate]
    | cons b ls' =>
      have h := ih (by simp)
      rw [List.intercalate] at h ⊢
      rw [List.intersperse_cons_cons]
      simp only [List.flatten_cons, List.length_append, List.map_cons,
        List.sum_cons, List.length_cons, List.length_singleton,
        List.length_nil] at h ⊢
      omega

/-- The estimate written in the spec's own words: `ceil(L/4) + T`. -/
def specTokenEstimate (L T : ℕ) : ℕ :=
  (L + 3) / 4 + T

/-- C6 counterexample: one message of 5 characters with
`max_tokens = 150`.  The code computes `max(1, 5 // 4) + 150 = 151`; the
spec's `ceil(5/4) + 150 = 152`. -/
theorem estimate_not_ceiling :
    wrapperEstimate [⟨"user", ['h', 'e', 'l', 'l', 'o']⟩] 150 = 151 ∧
    specTokenEstimate
      (promptText [⟨"user", ['h', 'e', 'l', 'l', 'o']⟩]).length 150 = 152 ∧
    (151 : ℕ) ≠ 152 := by
  refine ⟨rfl, rfl, by decide⟩

/-- C6 (amended): for `n ≥ 1` messages whose contents have total length `S`,
the admission estimate is computed from the space-joined prompt of length
`L = S + (n - 1)` as `max(1, L // 4) + T` — floor division with a minimum of
one input token, deterministic and network-free — rather than
`ceil(L/4) + T`. -/
theorem estimate_tokens_formula (msgs : List ChatMessage) (T : ℕ)
    (hne : msgs ≠ []) :
    wrapperEstimate msgs T =
      max 1 (((msgs.map (fun m => m.content.length)).sum + (msgs.length - 1)) / 4)
        + T := by
  rw [wrapperEstimate, estimate_tokens, promptText]
  rw [length_intercalate_space _ (by simpa using hne)]
  simp [List.map_map, Function.comp_def]

/-- Witness for the amended C6 at two messages of lengths 5 and 2
(joined length 8, estimate `max(1, 8 // 4) + 150 = 152`). -/
theorem estimate_tokens_formula_witness :
    wrapperEstimate [⟨"user", ['h', 'e', 'l', 'l', 'o']⟩, ⟨"user", ['h', 'i']⟩]
        150 =
      max 1 ((([⟨"user", ['h', 'e', 'l', 'l', 'o']⟩,
          (⟨"user", ['h', 'i']⟩ : ChatMessage)].map
            (fun m => m.content.length)).sum + (2 - 1)) / 4) + 150 :=
  estimate_tokens_formula
    [⟨"user", ['h', 'e', 'l', 'l', 'o']⟩, ⟨"user", ['h', 'i']⟩] 150
    (by decide)

/-! ### Streaming session manager (`ai_handlers.py`, `AIWebSocketManager`)

The manager keeps `active_streams : Dict[connection_id, asyncio.Task]`.
Tasks are modelled by identifiers allocated from a counter, with a status
(running / cancelled / finished).  The four operations below embed the code
paths that touch `active_streams`; each runs without an intervening
suspension point in the source, hence atomically with respect to the event
loop:

* `start_chat_stream` — `_start_chat_stream` lines 165–175: cancel any
  registered task, create a task, register it;
* `finish_stream` — the `finally` of `_start_chat_stream`: the stream task
  has ended (completed or cancelled) and the dict entry for the connection is
  removed if present;
* `stop_generation` — `_handle_stop_generation`: cancel the registered task,
  leaving it registered;
* `disconnect` — `disconnect`: cancel the registered task and remove it. -/

inductive TaskStatus where
  | running : TaskStatus
  | cancelled : TaskStatus
  | finished : TaskStatus
deriving Repr, DecidableEq

structure ManagerState where
  activeStreams : String → Option ℕ
  tasks : ℕ → Option (String × TaskStatus)
  nextTask : ℕ

def initManager : ManagerState :=
  ⟨fun _ => none, fun _ => none, 0⟩

/-- `task.cancel()`: a running task becomes cancelled; a task that already
ended is unaffected. -/
def markCancelled : TaskStatus → TaskStatus
  | TaskStatus.running => TaskStatus.cancelled
  | s => s

/-- A task ends: a running task completes; a cancelled task stays cancelled. -/
def markFinished : TaskStatus → TaskStatus
  | TaskStatus.running => TaskStatus.finished
  | s => s

def cancelTask (s : ManagerState) (tid : ℕ) : ManagerState :=
  { s with tasks := fun t =>
      if t = tid then (s.tasks t).map (fun e => (e.1, markCancelled e.2))
      else s.tasks t }

/-- Actions emitted by `_start_chat_stream`, in program order. -/
inductive StreamAction where
  | cancel : ℕ → StreamAction
  | spawn : ℕ → StreamAction
deriving Repr, DecidableEq

/-- `_start_chat_stream`: `if connection_id in self.active_streams:
self.active_streams[connection_id].cancel()`, then
`task = asyncio.create_task(...)`, then
`self.active_streams[connection_id] = task`. -/
def start_chat_stream (s : ManagerState) (cid : String) :
    ManagerState × List StreamAction :=
  let step :=
    match s.activeStreams cid with
    | some old => (cancelTask s old, [StreamAction.cancel old])
    | none => (s, ([] : List StreamAction))
  let tid := step.1.nextTask
  ({ step.1 with
      tasks := fun t =>
        if t = tid then some (cid, TaskStatus.running) else step.1.tasks t,
      activeStreams := fun c =>
        if c = cid then some tid else step.1.activeStreams c,
      nextTask := tid + 1 },
   step.2 ++ [StreamAction.spawn tid])

/-- The `finally` of `_start_chat_stream`, reached when the stream task
`tid` (spawned for `cid`) has ended: `if connection_id in
self.active_streams: del self.active_streams[connection_id]`. -/
def finish_stream (s : ManagerState) (cid : String) (tid : ℕ) : ManagerState :=
  { s with
      tasks := fun t =>
        if t = tid then (s.tasks t).map (fun e => (e.1, markFinished e.2))
        else s.tasks t,
      activeStreams := fun c => if c = cid then none else s.activeStreams c }

/-- `_handle_stop_generation`: cancel the registered task without removing
the dict entry. -/
def stop_generation (s : ManagerState) (cid : String) : ManagerState :=
  match s.activeStreams cid with
  | some tid => cancelTask s tid
  | none => s

/-- `disconnect`: cancel the registered task and remove the dict entry. -/
def manager_disconnect (s : ManagerState) (cid : String) : ManagerState :=
  match s.activeStreams cid with
  | some tid =>
    { cancelTask s tid with
        activeStreams := fun c => if c = cid then none else s.activeStreams c }
  | none => s

inductive ManagerOp where
  | startStream : String → ManagerOp
  | finishStream : String → ℕ → ManagerOp
  | stopGeneration : String → ManagerOp
  | disconnect : String → ManagerOp
deriving Repr, DecidableEq

def applyOp (s : ManagerState) : ManagerOp → ManagerState
  | ManagerOp.startStream cid => (start_chat_stream s cid).1
  | ManagerOp.finishStream cid tid => finish_stream s cid tid
  | ManagerOp.stopGeneration cid => stop_generation s cid
  | ManagerOp.disconnect cid => manager_disconnect s cid

/-- Scheduling assumption on a `finishStream` event: when the `finally` of
the `_start_chat_stream` frame that spawned task `tid` for `cid` runs, the
dict entry for `cid` is either still `tid` or absent.  The source does *not*
enforce this: `del self.active_streams[connection_id]` is keyed by the
connection id only, so with two websocket connections sharing one
caller-supplied connection id (`/ws/ai/{connection_id}` enforces no
uniqueness) the `finally` of one frame can delete another frame's registered
task.  The assumption does hold whenever connection ids are unique, because
each connection's receive loop awaits `_start_chat_stream` to completion, so
chat-request handling for a session is serial and only `disconnect` can
remove the entry in between. -/
def okOp (s : ManagerState) : ManagerOp → Prop
  | ManagerOp.finishStream cid tid =>
      (s.activeStreams cid = some tid ∨ s.activeStreams cid = none) ∧
      (∃ st, s.tasks tid = some (cid, st))
  | _ => True

def runOps (s : ManagerState) : List ManagerOp → ManagerState
  | [] => s
  | op :: ops => runOps (applyOp s op) ops

def WellSequenced (s : ManagerState) : List ManagerOp → Prop
  | [] => True
  | op :: ops => okOp s op ∧ WellSequenced (applyOp s op) ops

/-- `tid` is a live (spawned and neither cancelled nor finished) stream task
of session `cid`. -/
def runningFor (s : ManagerState) (cid : String) (tid : ℕ) : Prop :=
  s.tasks tid = some (cid, TaskStatus.running)

/-- Reachability invariant of the manager: task ids below the counter, every
registered task belongs to its session, and every live task is the one
registered for its session. -/
structure MgrInv (s : ManagerState) : Prop where
  fresh : ∀ tid, s.nextTask ≤ tid → s.tasks tid = none
  regTask : ∀ cid tid, s.activeStreams cid = some tid →
    ∃ st, s.tasks tid = some (cid, st)
  runReg : ∀ cid tid, s.tasks tid = some (cid, TaskStatus.running) →
    s.activeStreams cid = some tid

lemma markCancelled_ne_running (st : TaskStatus) :
    markCancelled st ≠ TaskStatus.running := by
  cases st <;> simp [markCancelled]

lemma markFinished_ne_running (st : TaskStatus) :
    markFinished st ≠ TaskStatus.running := by
  cases st <;> simp [markFinished]

lemma tasks_lt_next {s : ManagerState} (hinv : MgrInv s) {t : ℕ}
    {x : String × TaskStatus} (h : s.tasks t = some x) : t < s.nextTask := by
  by_contra hge
  rw [hinv.fresh t (le_of_not_lt hge)] at h
  exact Option.noConfusion h

lemma mgr_inv_start (s : ManagerState) (cid : String) (hinv : MgrInv s) :
    MgrInv (start_chat_stream s cid).1 := by
  cases hb : s.activeStreams cid with
  | none =>
    simp only [start_chat_stream, hb]
    constructor
    · intro tid hge
      dsimp only at hge ⊢
      rw [if_neg (by omega)]
      exact hinv.fresh tid (by omega)
    · intro c t hreg
      dsimp only at hreg ⊢
      by_cases hc : c = cid
      · rw [if_pos hc] at hreg
        have ht : t = s.nextTask := by
          have := hreg.symm
          injection this
        subst hc
        subst ht
        exact ⟨TaskStatus.running, by rw [if_pos rfl]⟩
      · rw [if_neg hc] at hreg
        obtain ⟨st, hst⟩ := hinv.regTask c t hreg
        have hlt := tasks_lt_next hinv hst
        exact ⟨st, by rw [if_neg (by omega)]; exact hst⟩
    · intro c t hrun
      dsimp only at hrun ⊢
      by_cases ht : t = s.nextTask
      · rw [if_pos ht] at hrun
        have hc : cid = c := by
          have := hrun
          simp only [Option.some.injEq, Prod.mk.injEq] at this
          exact this.1
        subst hc
        rw [if_pos rfl, ht]
      · rw [if_neg ht] at hrun
        have hreg := hinv.runReg c t hrun
        have hc : ¬c = cid := by
          intro hc
          subst hc
          rw [hb] at hreg
          exact Option.noConfusion hreg
        rw [if_neg hc]
        exact hreg
  | some old =>
    obtain ⟨st₀, hold⟩ := hinv.regTask cid old hb
    have holdlt := tasks_lt_next hinv hold
    simp only [start_chat_stream, hb, cancelTask]
    constructor
    · intro tid hge
      dsimp only at hge ⊢
      rw [if_neg (by omega), if_neg (by omega)]
      exact hinv.fresh tid (by omega)
    · intro c t hreg
      dsimp only at hreg ⊢
      by_cases hc : c = cid
      · rw [if_pos hc] at hreg
        have ht : t = s.nextTask := by
          have := hreg.symm
          injection this
        subst hc
        subst ht
        exact ⟨TaskStatus.running, by rw [if_pos rfl]⟩
      · rw [if_neg hc] at hreg
        obtain ⟨st, hst⟩ := hinv.regTask c t hreg
        have hlt := tasks_lt_next hinv hst
        by_cases hto : t = old
        · subst hto
          have : c = cid := by
            rw [hold] at hst
            simp only [Option.some.injEq, Prod.mk.injEq] at hst
            exact hst.1.symm
          exact absurd this hc
        · exact ⟨st, by rw [if_neg (by omega), if_neg hto]; exact hst⟩
    · intro c t hrun
      dsimp only at hrun ⊢
      by_cases ht : t = s.nextTask
      · rw [if_pos ht] at hrun
        have hc : cid = c := by
          simp only [Option.some.injEq, Prod.mk.injEq] at hrun
          exact hrun.1
        subst hc
        rw [if_pos rfl, ht]
      · rw [if_neg ht] at hrun
        by_cases hto : t = old
        · subst hto
          rw [if_pos rfl, hold] at hrun
          simp only [Option.map, Option.some.injEq, Prod.mk.injEq] at hrun
          exact absurd hrun.2 (markCancelled_ne_running st₀)
        · rw [if_neg hto] at hrun
          have hreg := hinv.runReg c t hrun
          have hc : ¬c = cid := by
            intro hc
            subst hc
            rw [hb] at hreg
            have holdt : old = t := by injection hreg
            exact hto holdt.symm
          rw [if_neg hc]
          exact hreg

lemma mgr_inv_finish (s : ManagerState) (cid : String) (tid : ℕ)
    (hinv : MgrInv s)
    (hok : (s.activeStreams cid = some tid ∨ s.activeStreams cid = none) ∧
      ∃ st, s.tasks tid = some (cid, st)) :
    MgrInv (finish_stream s cid tid) := by
  obtain ⟨hdict, st₀, htid⟩ := hok
  constructor
  · intro t hge
    dsimp only [finish_stream] at hge ⊢
    by_cases ht : t = tid
    · subst ht
      rw [if_pos rfl, hinv.fresh t hge]
      rfl
    · rw [if_neg ht]
      exact hinv.fresh t hge
  · intro c t hreg
    dsimp only [finish_stream] at hreg ⊢
    by_cases hc : c = cid
    · rw [if_pos hc] at hreg
      exact Option.noConfusion hreg
    · rw [if_neg hc] at hreg
      obtain ⟨st, hst⟩ := hinv.regTask c t hreg
      by_cases ht : t = tid
      · subst ht
        rw [htid] at hst
        simp only [Option.some.injEq, Prod.mk.injEq] at hst
        exact absurd hst.1.symm hc
      · exact ⟨st, by rw [if_neg ht]; exact hst⟩
  · intro c t hrun
    dsimp only [finish_stream] at hrun ⊢
    by_cases ht : t = tid
    · subst ht
      rw [if_pos rfl, htid] at hrun
      simp only [Option.map, Option.some.injEq, Prod.mk.injEq] at hrun
      exact absurd hrun.2 (markFinished_ne_running st₀)
    · rw [if_neg ht] at hrun
      have hreg := hinv.runReg c t hrun
      by_cases hc : c = cid
      · subst hc
        rcases hdict with h | h
        · rw [h] at hreg
          have htid' : tid = t := by injection hreg
          exact absurd htid'.symm ht
        · rw [h] at hreg
          exact Option.noConfusion hreg
      · rw [if_neg hc]
        exact hreg

lemma mgr_inv_stop (s : ManagerState) (cid : String) (hinv : MgrInv s) :
    MgrInv (stop_generation s cid) := by
  cases hb : s.activeStreams cid with
  | none => simpa [stop_generation, hb] using hinv
  | some tid =>
    obtain ⟨st₀, htid⟩ := hinv.regTask cid tid hb
    simp only [stop_generation, hb, cancelTask]
    constructor
    · intro t hge
      dsimp only at hge ⊢
      by_cases ht : t = tid
      · subst ht
        rw [if_pos rfl, hinv.fresh t hge]
        rfl
      · rw [if_neg ht]
        exact hinv.fresh t hge
    · intro c t hreg
      dsimp only at hreg ⊢
      obtain ⟨st, hst⟩ := hinv.regTask c t hreg
      by_cases ht : t = tid
      · subst ht
        refine ⟨markCancelled st, ?_⟩
        rw [if_pos rfl, hst]
        rfl
      · exact ⟨st, by rw [if_neg ht]; exact hst⟩
    · intro c t hrun
      dsimp only at hrun ⊢
      by_cases ht : t = tid
      · subst ht
        rw [if_pos rfl, htid] at hrun
        simp only [Option.map, Option.some.injEq, Prod.mk.injEq] at hrun
        exact absurd hrun.2 (markCancelled_ne_running st₀)
      · rw [if_neg ht] at hrun
        exact hinv.runReg c t hrun

lemma mgr_inv_disconnect (s : ManagerState) (cid : String) (hinv : MgrInv s) :
    MgrInv (manager_disconnect s cid) := by
  cases hb : s.activeStreams cid with
  | none => simpa [manager_disconnect, hb] using hinv
  | some tid =>
    obtain ⟨st₀, htid⟩ := hinv.regTask cid tid hb
    simp only [manager_disconnect, hb, cancelTask]
    constructor
    · intro t hge
      dsimp only at hge ⊢
      by_cases ht : t = tid
      · subst ht
        rw [if_pos rfl, hinv.fresh t hge]
        rfl
      · rw [if_neg ht]
        exact hinv.fresh t hge
    · intro c t hreg
      dsimp only at hreg ⊢
      by_cases hc : c = cid
      · rw [if_pos hc] at hreg
        exact Option.noConfusion hreg
      · rw [if_neg hc] at hreg
        obtain ⟨st, hst⟩ := hinv.regTask c t hreg
        by_cases ht : t = tid
        · subst ht
          rw [htid] at hst
          simp only [Option.some.injEq, Prod.mk.injEq] at hst
          exact absurd hst.1.symm hc
        · exact ⟨st, by rw [if_neg ht]; exact hst⟩
    · intro c t hrun
      dsimp only at hrun ⊢
      by_cases ht : t = tid
      · subst ht
        rw [if_pos rfl, htid] at hrun
        simp only [Option.map, Option.some.injEq, Prod.mk.injEq] at hrun
        exact absurd hrun.2 (markCancelled_ne_running st₀)
      · rw [if_neg ht] at hrun
        have hreg := hinv.runReg c t hrun
        by_cases hc : c = cid
        · subst hc
          rw [hb] at hreg
          have htid' : tid = t := by injection hreg
          exact absurd htid'.symm ht
        · rw [if_neg hc]
          exact hreg

lemma mgr_inv_runOps (ops : List ManagerOp) :
    ∀ s, MgrInv s → WellSequenced s ops → MgrInv (runOps s ops) := by
  induction ops with
  | nil =>
    intro s h _
    simpa [runOps] using h
  | cons op ops ih =>
    intro s h hws
    simp only [WellSequenced] at hws
    rw [runOps]
    refine ih _ ?_ hws.2
    cases op with
    | startStream cid => exact mgr_inv_start s cid h
    | finishStream cid tid =>
      exact mgr_inv_finish s cid tid h (by simpa [okOp] using hws.1)
    | stopGeneration cid => exact mgr_inv_stop s cid h
    | disconnect cid => exact mgr_inv_disconnect s cid h

lemma mgr_inv_init : MgrInv initManager := by
  constructor
  · intro t _
    rfl
  · intro c t hreg
    exact Option.noConfusion hreg
  · intro c t hrun
    exact Option.noConfusion hrun

/-- C2 counterexample: with two connections sharing one caller-supplied
connection id `"a"` (`/ws/ai/{connection_id}` enforces no uniqueness), the
source reaches a state with two concurrently live stream tasks for that one
session.  The trace: connection A's chat-request spawns task 0; connection
B's chat-request cancels task 0 and registers task 1; A's frame resumes from
the cancelled `await`, and its `finally` (`del self.active_streams["a"]`,
keyed by connection id only) removes task 1's registration; the next
chat-request then finds no registered stream and spawns task 2 without
cancelling task 1 — tasks 1 and 2 are both running for session `"a"`. -/
theorem duplicate_connection_concurrent_streams :
    runningFor
      (runOps initManager
        [ManagerOp.startStream "a", ManagerOp.startStream "a",
          ManagerOp.finishStream "a" 0, ManagerOp.startStream "a"]) "a" 1 ∧
    runningFor
      (runOps initManager
        [ManagerOp.startStream "a", ManagerOp.startStream "a",
          ManagerOp.finishStream "a" 0, ManagerOp.startStream "a"]) "a" 2 ∧
    (1 : ℕ) ≠ 2 := by
  refine ⟨?_, ?_, by decide⟩ <;> rfl

/-- C2 (amended): the claim holds for schedules in which every stream
task's `finally` runs while the session's dict entry is still that task or
absent — which the source guarantees whenever connection ids are unique,
since each connection's receive loop awaits `_start_chat_stream` to
completion, but not when two connections share a caller-supplied id.  Along
any such well-sequenced trace from the empty manager, every session
(connection id) has at most one live stream task at any instant; and —
unconditionally — handling a chat-request while a stream is registered for
that session always emits the cancellation of the prior task before the
spawn and registration of the new one. -/
theorem single_stream_per_session (ops : List ManagerOp)
    (hws : WellSequenced initManager ops) :
    (∀ cid tid₁ tid₂,
      runningFor (runOps initManager ops) cid tid₁ →
      runningFor (runOps initManager ops) cid tid₂ → tid₁ = tid₂) ∧
    (∀ s : ManagerState, ∀ cid old, s.activeStreams cid = some old →
      (start_chat_stream s cid).2 =
        [StreamAction.cancel old, StreamAction.spawn s.nextTask]) := by
  constructor
  · intro cid tid₁ tid₂ h₁ h₂
    have hinv := mgr_inv_runOps ops initManager mgr_inv_init hws
    have e₁ := hinv.runReg cid tid₁ h₁
    have e₂ := hinv.runReg cid tid₂ h₂
    rw [e₁] at e₂
    injection e₂
  · intro s cid old hb
    simp [start_chat_stream, hb, cancelTask]

/-- Witness for C2: the trace that connects one session and starts two
streams on it (the second chat-request replaces the first stream). -/
theorem single_stream_per_session_witness :
    (∀ cid tid₁ tid₂,
      runningFor (runOps initManager
        [ManagerOp.startStream "a", ManagerOp.startStream "a"]) cid tid₁ →
      runningFor (runOps initManager
        [ManagerOp.startStream "a", ManagerOp.startStream "a"]) cid tid₂ →
      tid₁ = tid₂) ∧
    (∀ s : ManagerState, ∀ cid old, s.activeStreams cid = some old →
      (start_chat_stream s cid).2 =
        [StreamAction.cancel old, StreamAction.spawn s.nextTask]) :=
  single_stream_per_session
    [ManagerOp.startStream "a", ManagerOp.startStream "a"]
    (by simp [WellSequenced, okOp])

/-! ### Chat-request handling and model loading
(`ai_handlers.py`, `_handle_chat_request` / `_stream_chat_response`;
`providers/base.py`, `providers/ollama.py`, `providers/openai.py`,
`load_model`)

A provider is its catalog (`models`, the keys of the `_models` dict, whose
values are always `True`) together with its `load_model` return value —
`Option Bool` for the Python return value, `none` for `None`.  The stream of
the provider is modelled by the chunks it yields and an optional mid-stream
exception message. -/

structure Provider where
  models : List String
  load_model : String → Option Bool

/-- `OllamaProvider.load_model`: `return None`. -/
def ollama_load_model (_model : String) : Option Bool := none

/-- `OpenAIProvider.load_model`: `return None`. -/
def openai_load_model (_model : String) : Option Bool := none

/-- Default `AIProvider.load_model` (`base.py`): `return None`. -/
def base_load_model (_model : String) : Option Bool := none

/-- Outbound events of the chat-request path, in emission order.
`streamContent` is the `stream_content` token message. -/
inductive WsEvent where
  | modelLoading : String → String → WsEvent
  | modelLoaded : String → String → WsEvent
  | streamStart : WsEvent
  | streamContent : String → WsEvent
  | streamComplete : WsEvent
  | errorEv : String → WsEvent
deriving Repr, DecidableEq

/-- `_stream_chat_response`: emit `stream_start`, forward each non-empty
chunk, then `stream_complete`; a raised exception mid-stream is converted to
an `error` event instead. -/
def stream_chat_response (chunks : List String) (streamError : Option String) :
    List WsEvent :=
  WsEvent.streamStart ::
    ((chunks.filter (fun c => c ≠ "")).map WsEvent.streamContent ++
      (match streamError with
       | none => [WsEvent.streamComplete]
       | some msg => [WsEvent.errorEv ("Streaming failed: " ++ msg)]))

/-- `_handle_chat_request`: if the model is absent from the provider's
catalog, emit `model_loading`, call `load_model`, and — since Python treats
`None` and `False` as falsy — emit a `Failed to load model` error and return
unless the call returned `True`; otherwise stream. -/
def handle_chat_request (p : Provider) (providerName model : String)
    (chunks : List String) (streamError : Option String) : List WsEvent :=
  if model ∈ p.models then
    stream_chat_response chunks streamError
  else
    WsEvent.modelLoading model providerName ::
      (match p.load_model model with
       | some true => stream_chat_response chunks streamError
       | _ => [WsEvent.errorEv ("Failed to load model: " ++ model)])

/-- C8: for a chat-request whose model is absent from the resolved
provider's catalog — every provider of this codebase returns `None` from
`load_model` — the handler emits `model_loading` first, followed by either a
successful-load stream or an error event (here always the error event), and
`stream_start` is never emitted without a successful load. -/
theorem chat_request_loading_order (models : List String)
    (loadModel : String → Option Bool) (providerName model : String)
    (chunks : List String) (streamError : Option String)
    (habsent : model ∉ models) (hload : loadModel model = none) :
    (ollama_load_model model = none ∧ openai_load_model model = none ∧
      base_load_model model = none) ∧
    (handle_chat_request ⟨models, loadModel⟩ providerName model chunks
        streamError).head? = some (WsEvent.modelLoading model providerName) ∧
    ((∃ rest, (handle_chat_request ⟨models, loadModel⟩ providerName model
          chunks streamError).tail =
        WsEvent.modelLoaded model providerName :: WsEvent.streamStart :: rest) ∨
      (handle_chat_request ⟨models, loadModel⟩ providerName model chunks
          streamError).tail =
        [WsEvent.errorEv ("Failed to load model: " ++ model)]) ∧
    WsEvent.streamStart ∉
      handle_chat_request ⟨models, loadModel⟩ providerName model chunks
        streamError := by
  refine ⟨⟨rfl, rfl, rfl⟩, ?_, ?_, ?_⟩
  · simp [handle_chat_request, habsent, hload]
  · right
    simp [handle_chat_request, habsent, hload]
  · simp [handle_chat_request, habsent, hload]

/-- Witness for C8: model `"m1"` absent from an `["llama3.1"]` catalog. -/
theorem chat_request_loading_order_witness :
    (ollama_load_model "m1" = none ∧ openai_load_model "m1" = none ∧
      base_load_model "m1" = none) ∧
    (handle_chat_request ⟨["llama3.1"], ollama_load_model⟩ "ollama" "m1"
        ["hi"] none).head? = some (WsEvent.modelLoading "m1" "ollama") ∧
    ((∃ rest, (handle_chat_request ⟨["llama3.1"], ollama_load_model⟩ "ollama"
          "m1" ["hi"] none).tail =
        WsEvent.modelLoaded "m1" "ollama" :: WsEvent.streamStart :: rest) ∨
      (handle_chat_request ⟨["llama3.1"], ollama_load_model⟩ "ollama" "m1"
          ["hi"] none).tail =
        [WsEvent.errorEv ("Failed to load model: " ++ "m1")]) ∧
    WsEvent.streamStart ∉
      handle_chat_request ⟨["llama3.1"], ollama_load_model⟩ "ollama" "m1"
        ["hi"] none :=
  chat_request_loading_order ["llama3.1"] ollama_load_model "ollama" "m1"
    ["hi"] none (by decide) rfl

/-- C10: every `load_model` in the codebase returns `None`, so the
load-success branch of `_handle_chat_request` is unreachable: for any model
absent from the catalog the handler emits exactly `model_loading` followed by
the `Failed to load model` error, and never begins streaming, whichever
provider is resolved. -/
theorem load_model_success_unreachable (models : List String)
    (providerName model : String) (chunks : List String)
    (streamError : Option String) (habsent : model ∉ models) :
    ollama_load_model model = none ∧ openai_load_model model = none ∧
    base_load_model model = none ∧
    handle_chat_request ⟨models, ollama_load_model⟩ providerName model chunks
        streamError =
      [WsEvent.modelLoading model providerName,
        WsEvent.errorEv ("Failed to load model: " ++ model)] ∧
    handle_chat_request ⟨models, openai_load_model⟩ providerName model chunks
        streamError =
      [WsEvent.modelLoading model providerName,
        WsEvent.errorEv ("Failed to load model: " ++ model)] := by
  refine ⟨rfl, rfl, rfl, ?_, ?_⟩ <;>
    simp [handle_chat_request, habsent, ollama_load_model, openai_load_model]

/-- Witness for C10: model `"m1"` absent from an `["llama3.1"]` catalog. -/
theorem load_model_success_unreachable_witness :
    ollama_load_model "m1" = none ∧ openai_load_model "m1" = none ∧
    base_load_model "m1" = none ∧
    handle_chat_request ⟨["llama3.1"], ollama_load_model⟩ "ollama" "m1" ["hi"]
        none =
      [WsEvent.modelLoading "m1" "ollama",
        WsEvent.errorEv ("Failed to load model: " ++ "m1")] ∧
    handle_chat_request ⟨["llama3.1"], openai_load_model⟩ "ollama" "m1" ["hi"]
        none =
      [WsEvent.modelLoading "m1" "ollama",
        WsEvent.errorEv ("Failed to load model: " ++ "m1")] :=
  load_model_success_unreachable ["llama3.1"] "ollama" "m1" ["hi"] none
    (by decide)

/-! ### Provider registry construction (`router.py`, `AIRouter.setup_providers`)

`setup_providers` runs inside a single `try`: it conditionally constructs the
ollama, openai and huggingface adapters in that order, inserting each into
`self.providers` as it goes, and sets `self.default_provider` at the end; a
raised exception anywhere is caught after the whole block (the app starts
without AI rather than crashing), leaving whatever was registered so far and
leaving `default_provider = None`.  The adapter payload is abstract (`P`);
each constructor either returns an adapter or raises. -/

structure SetupConfig where
  ollamaEnabled : Bool
  openaiEnabled : Bool
  openaiApiKey : Bool
  huggingfaceEnabled : Bool
deriving Repr, DecidableEq

structure Builders (P : Type) where
  buildOllama : Except String P
  buildOpenai : Except String P
  buildHuggingface : Except String P

structure RouterState (P : Type) where
  providers : List (String × P)
  default_provider : Option String
deriving Repr, DecidableEq

/-- One conditional constructor call inside the `try` block: when enabled,
either extend the registry or raise, keeping the registry built so far. -/
def stageResult {P : Type} (enabled : Bool) (build : Except String P)
    (name : String) (ps : List (String × P)) :
    Except (List (String × P)) (List (String × P)) :=
  if enabled then
    match build with
    | Except.ok p => Except.ok (ps ++ [(name, p)])
    | Except.error _ => Except.error ps
  else Except.ok ps

/-- `AIRouter.setup_providers`.  The openai stage requires both the enabled
flag and a truthy api key (`ai_config.openai.enabled and
ai_config.openai.api_key`). -/
def setup_providers {P : Type} (cfg : SetupConfig) (b : Builders P)
    (envDefault : String) : RouterState P :=
  match stageResult cfg.ollamaEnabled b.buildOllama "ollama" [] with
  | Except.error ps => ⟨ps, none⟩
  | Except.ok ps1 =>
    match stageResult (cfg.openaiEnabled && cfg.openaiApiKey) b.buildOpenai
        "openai" ps1 with
    | Except.error ps => ⟨ps, none⟩
    | Except.ok ps2 =>
      match stageResult cfg.huggingfaceEnabled b.buildHuggingface
          "huggingface" ps2 with
      | Except.error ps => ⟨ps, none⟩
      | Except.ok ps3 => ⟨ps3, some envDefault⟩

/-- C9 counterexample: ollama enabled but its constructor raises, openai
enabled with an api key and building fine: the correctly-configured openai
provider is **not** registered and the environment default is **not** set. -/
theorem setup_aborts_on_build_failure :
    (setup_providers ⟨true, true, true, false⟩
        (⟨Except.error "boom", Except.ok 1, Except.ok 2⟩ : Builders ℕ)
        "ollama").providers.map Prod.fst = [] ∧
    "openai" ∉ (setup_providers ⟨true, true, true, false⟩
        (⟨Except.error "boom", Except.ok 1, Except.ok 2⟩ : Builders ℕ)
        "ollama").providers.map Prod.fst ∧
    (setup_providers ⟨true, true, true, false⟩
        (⟨Except.error "boom", Except.ok 1, Except.ok 2⟩ : Builders ℕ)
        "ollama").default_provider = none := by
  refine ⟨rfl, ?_, rfl⟩
  intro hmem
  simp [setup_providers, stageResult] at hmem

/-- C9 (amended): a build failure for one provider aborts the registration
of every provider after it in the fixed setup order (ollama, openai,
huggingface) and leaves the environment default provider unset; providers
registered before the failure remain registered, and the exception is
swallowed (the router is still constructed, so startup continues).  When no
enabled constructor fails, every enabled provider registers, in order, and
the default is set.  The four conjuncts cover, in turn: the no-failure case
with the full registry, and a failure at each of the three stages with the
exact registry built before it. -/
theorem setup_providers_stagewise {P : Type} (cfg : SetupConfig)
    (b : Builders P) (envDefault : String) :
    (∀ p1 p2 p3,
      (cfg.ollamaEnabled = true → b.buildOllama = Except.ok p1) →
      ((cfg.openaiEnabled && cfg.openaiApiKey) = true →
        b.buildOpenai = Except.ok p2) →
      (cfg.huggingfaceEnabled = true → b.buildHuggingface = Except.ok p3) →
      (setup_providers cfg b envDefault).providers =
        (if cfg.ollamaEnabled then [("ollama", p1)] else []) ++
        (if cfg.openaiEnabled && cfg.openaiApiKey then [("openai", p2)] else []) ++
        (if cfg.huggingfaceEnabled then [("huggingface", p3)] else []) ∧
      (setup_providers cfg b envDefault).default_provider = some envDefault) ∧
    (∀ e, cfg.ollamaEnabled = true → b.buildOllama = Except.error e →
      (setup_providers cfg b envDefault).providers = [] ∧
      (setup_providers cfg b envDefault).default_provider = none) ∧
    (∀ p1 e,
      (cfg.ollamaEnabled = true → b.buildOllama = Except.ok p1) →
      (cfg.openaiEnabled && cfg.openaiApiKey) = true →
      b.buildOpenai = Except.error e →
      (setup_providers cfg b envDefault).providers =
        (if cfg.ollamaEnabled then [("ollama", p1)] else []) ∧
      (setup_providers cfg b envDefault).default_provider = none) ∧
    (∀ p1 p2 e,
      (cfg.ollamaEnabled = true → b.buildOllama = Except.ok p1) →
      ((cfg.openaiEnabled && cfg.openaiApiKey) = true →
        b.buildOpenai = Except.ok p2) →
      cfg.huggingfaceEnabled = true →
      b.buildHuggingface = Except.error e →
      (setup_providers cfg b envDefault).providers =
        (if cfg.ollamaEnabled then [("ollama", p1)] else []) ++
        (if cfg.openaiEnabled && cfg.openaiApiKey then [("openai", p2)] else []) ∧
      (setup_providers cfg b envDefault).default_provider = none) := by
  refine ⟨?_, ?_, ?_, ?_⟩
  · intro p1 p2 p3 h1 h2 h3
    cases ho : cfg.ollamaEnabled <;>
      cases hoa : (cfg.openaiEnabled && cfg.openaiApiKey) <;>
        cases hh : cfg.huggingfaceEnabled <;>
          simp [setup_providers, stageResult, ho, hoa, hh, h1, h2, h3]
  · intro e ho he
    constructor <;> simp [setup_providers, stageResult, ho, he]
  · intro p1 e h1 hoa he
    cases ho : cfg.ollamaEnabled <;>
      simp [setup_providers, stageResult, ho, hoa, he, h1]
  · intro p1 p2 e h1 h2 hh he
    cases ho : cfg.ollamaEnabled <;>
      cases hoa : (cfg.openaiEnabled && cfg.openaiApiKey) <;>
        simp [setup_providers, stageResult, ho, hoa, hh, he, h1, h2]

/-- Witness for the amended C9: with all providers enabled, a huggingface
build failure leaves ollama and openai registered and the default unset;
with all three building, all three register and the default is set. -/
theorem setup_providers_stagewise_witness :
    ((setup_providers ⟨true, true, true, true⟩
        (⟨Except.ok 1, Except.ok 2, Except.error "hf down"⟩ : Builders ℕ)
        "ollama").providers = [("ollama", 1), ("openai", 2)] ∧
      (setup_providers ⟨true, true, true, true⟩
        (⟨Except.ok 1, Except.ok 2, Except.error "hf down"⟩ : Builders ℕ)
        "ollama").default_provider = none) ∧
    ((setup_providers ⟨true, true, true, true⟩
        (⟨Except.ok 1, Except.ok 2, Except.ok 3⟩ : Builders ℕ)
        "ollama").providers =
        [("ollama", 1), ("openai", 2), ("huggingface", 3)] ∧
      (setup_providers ⟨true, true, true, true⟩
        (⟨Except.ok 1, Except.ok 2, Except.ok 3⟩ : Builders ℕ)
        "ollama").default_provider = some "ollama") := by
  constructor
  · have := (setup_providers_stagewise ⟨true, true, true, true⟩
      (⟨Except.ok 1, Except.ok 2, Except.error "hf down"⟩ : Builders ℕ)
      "ollama").2.2.2 1 2 "hf down" (fun _ => rfl) (fun _ => rfl) rfl rfl
    simpa using this
  · have := (setup_providers_stagewise ⟨true, true, true, true⟩
      (⟨Except.ok 1, Except.ok 2, Except.ok 3⟩ : Builders ℕ)
      "ollama").1 1 2 3 (fun _ => rfl) (fun _ => rfl) (fun _ => rfl)
    simpa using this
